import Mathlib

/-!
Shallow embedding of the StellarCade core contracts:

* `PrizePool` — the custody ledger (`src/contracts/prize-pool/src/lib.rs`):
  pooled `available` balance, per-game reservations, `fund` / `reserve` /
  `release` / `payout` operations over `i128` checked arithmetic.
* `RandomGenerator` — the randomness oracle
  (`src/contracts/random-generator/src/lib.rs`): whitelist-gated two-phase
  request/fulfill protocol deriving a bounded result from a SHA-256 digest.

Modelling conventions:
* Addresses are `Nat`; `u64` identifiers are `Nat`; `i128` values are `Int`
  with explicit checked arithmetic bounded by `[-2^127, 2^127 - 1]`.
* Host-verified authorization proofs (`require_auth`) always succeed in the
  model; the contracts' own equality checks against the stored admin/oracle
  addresses are modelled faithfully.
* Soroban invocation semantics are all-or-nothing: a contract entry point
  that returns `Err` aborts the invocation and the host discards every
  storage write of that invocation.  Each operation is therefore a function
  `State → Except Error State`: the error case carries no mutated state.
* The SHA-256 primitive is a host capability (not implemented in this
  repository), so the oracle model is parameterised by an arbitrary digest
  function `H : List Nat → List Nat` standing for SHA-256 over byte strings.
* Storage maps (reservations, whitelist, pending/fulfilled requests) are
  modelled as total functions from keys to `Option`/`Bool`, with pointwise
  update; events are accumulated in a list (most recent first).
-/

set_option maxRecDepth 16384

namespace StellarCade

/-- Smallest `i128` value. -/
def I128_MIN : Int := -(2 ^ 127)

/-- Largest `i128` value. -/
def I128_MAX : Int := 2 ^ 127 - 1

/-- Rust `i128::checked_add`: `none` exactly when the exact sum leaves the
`i128` range. -/
def checked_add (a b : Int) : Option Int :=
  if I128_MIN ≤ a + b ∧ a + b ≤ I128_MAX then some (a + b) else none

/-- Rust `i128::checked_sub`: `none` exactly when the exact difference leaves
the `i128` range. -/
def checked_sub (a b : Int) : Option Int :=
  if I128_MIN ≤ a - b ∧ a - b ≤ I128_MAX then some (a - b) else none

namespace PrizePool

/-- Error codes of the prize-pool contract (`enum Error` in the source). -/
inductive Error
  | AlreadyInitialized
  | NotInitialized
  | NotAuthorized
  | InvalidAmount
  | InsufficientFunds
  | GameAlreadyReserved
  | ReservationNotFound
  | PayoutExceedsReservation
  | Overflow
deriving DecidableEq

/-- Events published by the prize-pool contract. -/
inductive Event
  | Funded (fromAddr : Nat) (amount : Int)
  | Reserved (game_id : Nat) (amount : Int)
  | Released (game_id : Nat) (amount : Int)
  | PaidOut (toAddr : Nat) (game_id : Nat) (amount : Int)
deriving DecidableEq

/-- Per-game reservation record (`ReservationData` in the source). -/
structure ReservationData where
  total : Int
  remaining : Int
deriving DecidableEq

/-- Storage of the prize-pool contract.  `admin`/`token` are the instance
keys (absent before `init`); `available`, `totalReserved` and the
`reservations` map are the persistent keys.  `extTransfers` records the
external token transfers the contract issued (from, to, amount), most recent
first, and `events` the published events. -/
structure PoolSt where
  admin : Option Nat
  token : Option Nat
  available : Int
  totalReserved : Int
  reservations : Nat → Option ReservationData
  extTransfers : List (Nat × Nat × Int)
  events : List Event

/-- The contract's own address (`env.current_contract_address()`). -/
def contractAddr : Nat := 0

/-- Pointwise update of the reservations map. -/
def updRes (f : Nat → Option ReservationData) (k : Nat) (v : Option ReservationData) :
    Nat → Option ReservationData :=
  fun k' => if k' = k then v else f k'

/-- `require_initialized`: the instance `Admin` key must be present. -/
def require_initialized (s : PoolSt) : Except Error Unit :=
  if s.admin = none then .error .NotInitialized else .ok ()

/-- `require_admin`: load the stored admin and compare with the caller
(the caller's `require_auth` is host-verified and always succeeds here). -/
def require_admin (s : PoolSt) (caller : Nat) : Except Error Unit :=
  match s.admin with
  | none => .error .NotInitialized
  | some a => if caller ≠ a then .error .NotAuthorized else .ok ()

/-- State produced by a successful `init(admin, token)`. -/
def initPool (admin token : Nat) : PoolSt :=
  { admin := some admin
    token := some token
    available := 0
    totalReserved := 0
    reservations := fun _ => none
    extTransfers := []
    events := [] }

/-- `PrizePool::fund`: transfer `amount` from `fromAddr` into custody, then
increment `available` with checked addition. -/
def fund (s : PoolSt) (fromAddr : Nat) (amount : Int) : Except Error PoolSt :=
  match require_initialized s with
  | .error e => .error e
  | .ok _ =>
    if amount ≤ 0 then .error .InvalidAmount
    else
      match checked_add s.available amount with
      | none => .error .Overflow
      | some newAvailable =>
        .ok { s with
              available := newAvailable
              extTransfers := (fromAddr, contractAddr, amount) :: s.extTransfers
              events := .Funded fromAddr amount :: s.events }

/-- `PrizePool::reserve`: earmark `amount` from `available` into a fresh
`Reservation(game_id)` entry. -/
def reserve (s : PoolSt) (admin : Nat) (game_id : Nat) (amount : Int) :
    Except Error PoolSt :=
  match require_initialized s with
  | .error e => .error e
  | .ok _ =>
  match require_admin s admin with
  | .error e => .error e
  | .ok _ =>
  if amount ≤ 0 then .error .InvalidAmount
  else if (s.reservations game_id).isSome then .error .GameAlreadyReserved
  else if amount > s.available then .error .InsufficientFunds
  else
    match checked_sub s.available amount with
    | none => .error .Overflow
    | some newAvailable =>
      match checked_add s.totalReserved amount with
      | none => .error .Overflow
      | some newTotalReserved =>
        .ok { s with
              available := newAvailable
              totalReserved := newTotalReserved
              reservations := updRes s.reservations game_id (some ⟨amount, amount⟩)
              events := .Reserved game_id amount :: s.events }

/-- `PrizePool::release`: return `amount` from a reservation back to
`available`; the reservation entry is removed when its `remaining` hits 0. -/
def release (s : PoolSt) (admin : Nat) (game_id : Nat) (amount : Int) :
    Except Error PoolSt :=
  match require_initialized s with
  | .error e => .error e
  | .ok _ =>
  match require_admin s admin with
  | .error e => .error e
  | .ok _ =>
  if amount ≤ 0 then .error .InvalidAmount
  else
    match s.reservations game_id with
    | none => .error .ReservationNotFound
    | some reservation =>
      if amount > reservation.remaining then .error .PayoutExceedsReservation
      else
        match checked_sub reservation.remaining amount with
        | none => .error .Overflow
        | some newRemaining =>
          match checked_add s.available amount with
          | none => .error .Overflow
          | some newAvailable =>
            match checked_sub s.totalReserved amount with
            | none => .error .Overflow
            | some newTotalReserved =>
              .ok { s with
                    available := newAvailable
                    totalReserved := newTotalReserved
                    reservations := updRes s.reservations game_id
                      (if newRemaining = 0 then none
                       else some ⟨reservation.total, newRemaining⟩)
                    events := .Released game_id amount :: s.events }

/-- `PrizePool::payout`: draw `amount` from a reservation and transfer it
externally to `to`; `available` is untouched.  All accounting is committed
before the external transfer in the source; under all-or-nothing invocation
semantics the successful case carries both effects. -/
def payout (s : PoolSt) (admin : Nat) (toAddr : Nat) (game_id : Nat) (amount : Int) :
    Except Error PoolSt :=
  match require_initialized s with
  | .error e => .error e
  | .ok _ =>
  match require_admin s admin with
  | .error e => .error e
  | .ok _ =>
  if amount ≤ 0 then .error .InvalidAmount
  else
    match s.reservations game_id with
    | none => .error .ReservationNotFound
    | some reservation =>
      if amount > reservation.remaining then .error .PayoutExceedsReservation
      else
        match checked_sub reservation.remaining amount with
        | none => .error .Overflow
        | some newRemaining =>
          match checked_sub s.totalReserved amount with
          | none => .error .Overflow
          | some newTotalReserved =>
            .ok { s with
                  totalReserved := newTotalReserved
                  reservations := updRes s.reservations game_id
                    (if newRemaining = 0 then none
                     else some ⟨reservation.total, newRemaining⟩)
                  extTransfers := (contractAddr, toAddr, amount) :: s.extTransfers
                  events := .PaidOut toAddr game_id amount :: s.events }

end PrizePool

/-- One invocation of a prize-pool entry point. -/
inductive PoolOp
  | fund (fromAddr : Nat) (amount : Int)
  | reserve (admin : Nat) (game_id : Nat) (amount : Int)
  | release (admin : Nat) (game_id : Nat) (amount : Int)
  | payout (admin : Nat) (toAddr : Nat) (game_id : Nat) (amount : Int)

/-- Dispatch one prize-pool invocation. -/
def applyPoolOp (s : PrizePool.PoolSt) : PoolOp → Except PrizePool.Error PrizePool.PoolSt
  | .fund f a => PrizePool.fund s f a
  | .reserve ad g a => PrizePool.reserve s ad g a
  | .release ad g a => PrizePool.release s ad g a
  | .payout ad t g a => PrizePool.payout s ad t g a

/-- Resulting state of one invocation: a failed invocation leaves the
storage exactly as it was (host rollback). -/
def poolStep (s : PrizePool.PoolSt) (op : PoolOp) : PrizePool.PoolSt :=
  match applyPoolOp s op with
  | .ok s' => s'
  | .error _ => s

/-- Run a sequence of invocations. -/
def poolRun (s : PrizePool.PoolSt) : List PoolOp → PrizePool.PoolSt
  | [] => s
  | op :: ops => poolRun (poolStep s op) ops

/-- Amount of a successful `fund` invocation (0 for failures and other ops). -/
def fundDelta (s : PrizePool.PoolSt) : PoolOp → Int
  | .fund f a =>
    match PrizePool.fund s f a with
    | .ok _ => a
    | .error _ => 0
  | _ => 0

/-- Amount of a successful `payout` invocation (0 for failures and other ops). -/
def payoutDelta (s : PrizePool.PoolSt) : PoolOp → Int
  | .payout ad t g a =>
    match PrizePool.payout s ad t g a with
    | .ok _ => a
    | .error _ => 0
  | _ => 0

/-- Cumulative sum of successful `fund` amounts along a run. -/
def poolFunds (s : PrizePool.PoolSt) : List PoolOp → Int
  | [] => 0
  | op :: ops => fundDelta s op + poolFunds (poolStep s op) ops

/-- Cumulative sum of successful `payout` amounts along a run. -/
def poolPayouts (s : PrizePool.PoolSt) : List PoolOp → Int
  | [] => 0
  | op :: ops => payoutDelta s op + poolPayouts (poolStep s op) ops

namespace RandomGenerator

/-- Error codes of the random-generator contract (`enum Error` in the source). -/
inductive Error
  | AlreadyInitialized
  | NotInitialized
  | NotAuthorized
  | InvalidBound
  | DuplicateRequestId
  | RequestNotFound
  | AlreadyFulfilled
  | UnauthorizedCaller
deriving DecidableEq

/-- A pending randomness request (`PendingEntry` in the source). -/
structure PendingEntry where
  caller : Nat
  max : Nat
deriving DecidableEq

/-- A fulfilled request (`FulfilledEntry` in the source); the 32-byte
`server_seed` is a list of byte values. -/
structure FulfilledEntry where
  caller : Nat
  max : Nat
  server_seed : List Nat
  result : Nat
deriving DecidableEq

/-- Events published by the random-generator contract. -/
inductive Event
  | RandomRequested (request_id : Nat) (caller : Nat) (max : Nat)
  | RandomFulfilled (request_id : Nat) (result : Nat) (server_seed : List Nat)
deriving DecidableEq

/-- Storage of the random-generator contract.  `admin`/`oracle` are the
instance keys (absent before `init`); the whitelist and the pending and
fulfilled request maps are the persistent keys. -/
structure OrSt where
  admin : Option Nat
  oracle : Option Nat
  whitelist : Nat → Bool
  pending : Nat → Option PendingEntry
  fulfilled : Nat → Option FulfilledEntry
  events : List Event

/-- Pointwise update of the whitelist. -/
def updW (f : Nat → Bool) (k : Nat) (v : Bool) : Nat → Bool :=
  fun k' => if k' = k then v else f k'

/-- Pointwise update of the pending-request map. -/
def updP (f : Nat → Option PendingEntry) (k : Nat) (v : Option PendingEntry) :
    Nat → Option PendingEntry :=
  fun k' => if k' = k then v else f k'

/-- Pointwise update of the fulfilled-request map. -/
def updF (f : Nat → Option FulfilledEntry) (k : Nat) (v : Option FulfilledEntry) :
    Nat → Option FulfilledEntry :=
  fun k' => if k' = k then v else f k'

/-- `require_initialized`: the instance `Admin` key must be present. -/
def require_initialized (s : OrSt) : Except Error Unit :=
  if s.admin = none then .error .NotInitialized else .ok ()

/-- `require_admin`: load the stored admin and compare with the caller. -/
def require_admin (s : OrSt) (caller : Nat) : Except Error Unit :=
  match s.admin with
  | none => .error .NotInitialized
  | some a => if caller ≠ a then .error .NotAuthorized else .ok ()

/-- `require_oracle`: load the stored oracle and compare with the caller. -/
def require_oracle (s : OrSt) (caller : Nat) : Except Error Unit :=
  match s.oracle with
  | none => .error .NotInitialized
  | some o => if caller ≠ o then .error .NotAuthorized else .ok ()

/-- State produced by a successful `init(admin, oracle)`. -/
def initOr (admin oracle : Nat) : OrSt :=
  { admin := some admin
    oracle := some oracle
    whitelist := fun _ => false
    pending := fun _ => none
    fulfilled := fun _ => none
    events := [] }

/-- `u64::to_be_bytes`: the 8 big-endian bytes of the low 64 bits of `n`. -/
def u64_to_be_bytes (n : Nat) : List Nat :=
  [n / 2 ^ 56 % 256, n / 2 ^ 48 % 256, n / 2 ^ 40 % 256, n / 2 ^ 32 % 256,
   n / 2 ^ 24 % 256, n / 2 ^ 16 % 256, n / 2 ^ 8 % 256, n % 256]

/-- `u64::from_be_bytes`: fold a byte list big-endian into a number. -/
def u64_from_be_bytes (l : List Nat) : Nat :=
  l.foldl (fun acc b => acc * 256 + b) 0

/-- `derive_result`: build the 40-byte preimage
`server_seed (32 bytes) ‖ request_id (8 bytes BE)`, hash it with the host
SHA-256 primitive `H`, interpret the first 8 digest bytes as a big-endian
`u64` and reduce modulo `max`. -/
def derive_result (H : List Nat → List Nat) (server_seed : List Nat)
    (request_id max : Nat) : Nat :=
  let preimage := server_seed ++ u64_to_be_bytes request_id
  let digest := H preimage
  u64_from_be_bytes (digest.take 8) % max

/-- `RandomGenerator::authorize`: add `caller` to the whitelist (admin only). -/
def authorize (s : OrSt) (admin : Nat) (caller : Nat) : Except Error OrSt :=
  match require_initialized s with
  | .error e => .error e
  | .ok _ =>
  match require_admin s admin with
  | .error e => .error e
  | .ok _ => .ok { s with whitelist := updW s.whitelist caller true }

/-- `RandomGenerator::revoke`: remove `caller` from the whitelist (admin only). -/
def revoke (s : OrSt) (admin : Nat) (caller : Nat) : Except Error OrSt :=
  match require_initialized s with
  | .error e => .error e
  | .ok _ =>
  match require_admin s admin with
  | .error e => .error e
  | .ok _ => .ok { s with whitelist := updW s.whitelist caller false }

/-- `RandomGenerator::request_random`: whitelisted callers register a pending
request with bound `max ≥ 2`; a `request_id` already pending or fulfilled is
rejected as a duplicate. -/
def request_random (s : OrSt) (caller : Nat) (request_id : Nat) (max : Nat) :
    Except Error OrSt :=
  match require_initialized s with
  | .error e => .error e
  | .ok _ =>
  if max < 2 then .error .InvalidBound
  else if ¬ s.whitelist caller then .error .UnauthorizedCaller
  else if (s.pending request_id).isSome ∨ (s.fulfilled request_id).isSome then
    .error .DuplicateRequestId
  else
    .ok { s with
          pending := updP s.pending request_id (some ⟨caller, max⟩)
          events := .RandomRequested request_id caller max :: s.events }

/-- `RandomGenerator::fulfill_random`: the designated oracle resolves a
pending request, deleting the pending entry and writing the fulfilled entry
in the same step. -/
def fulfill_random (H : List Nat → List Nat) (s : OrSt) (oracle : Nat)
    (request_id : Nat) (server_seed : List Nat) : Except Error OrSt :=
  match require_initialized s with
  | .error e => .error e
  | .ok _ =>
  match require_oracle s oracle with
  | .error e => .error e
  | .ok _ =>
  if (s.fulfilled request_id).isSome then .error .AlreadyFulfilled
  else
    match s.pending request_id with
    | none => .error .RequestNotFound
    | some p =>
      let result := derive_result H server_seed request_id p.max
      .ok { s with
            pending := updP s.pending request_id none
            fulfilled := updF s.fulfilled request_id
              (some ⟨p.caller, p.max, server_seed, result⟩)
            events := .RandomFulfilled request_id result server_seed :: s.events }

/-- `RandomGenerator::get_result`: the fulfilled entry, or `RequestNotFound`
when the id is absent or still pending. -/
def get_result (s : OrSt) (request_id : Nat) : Except Error FulfilledEntry :=
  match require_initialized s with
  | .error e => .error e
  | .ok _ =>
    match s.fulfilled request_id with
    | none => .error .RequestNotFound
    | some entry => .ok entry

end RandomGenerator

/-- One invocation of a random-generator entry point. -/
inductive OrOp
  | authorize (admin : Nat) (caller : Nat)
  | revoke (admin : Nat) (caller : Nat)
  | request_random (caller : Nat) (request_id : Nat) (max : Nat)
  | fulfill_random (oracle : Nat) (request_id : Nat) (server_seed : List Nat)

/-- Dispatch one random-generator invocation; `H` is the host SHA-256. -/
def applyOrOp (H : List Nat → List Nat) (s : RandomGenerator.OrSt) :
    OrOp → Except RandomGenerator.Error RandomGenerator.OrSt
  | .authorize ad c => RandomGenerator.authorize s ad c
  | .revoke ad c => RandomGenerator.revoke s ad c
  | .request_random c id mx => RandomGenerator.request_random s c id mx
  | .fulfill_random o id seed => RandomGenerator.fulfill_random H s o id seed

/-- Resulting state of one invocation: a failed invocation leaves the
storage exactly as it was (host rollback). -/
def orStep (H : List Nat → List Nat) (s : RandomGenerator.OrSt) (op : OrOp) :
    RandomGenerator.OrSt :=
  match applyOrOp H s op with
  | .ok s' => s'
  | .error _ => s

/-- Run a sequence of invocations. -/
def orRun (H : List Nat → List Nat) (s : RandomGenerator.OrSt) :
    List OrOp → RandomGenerator.OrSt
  | [] => s
  | op :: ops => orRun H (orStep H s op) ops

/-- Mutual exclusivity of the pending and fulfilled states of a request id. -/
def Excl (s : RandomGenerator.OrSt) : Prop :=
  ∀ id, s.pending id = none ∨ s.fulfilled id = none

/-- Concrete pool state used to evaluate the theorems: initialized with
admin 3 and token 9, 100 available, one open reservation of 50 for game 1. -/
def poolW : PrizePool.PoolSt :=
  { admin := some 3
    token := some 9
    available := 100
    totalReserved := 50
    reservations := fun g => if g = 1 then some ⟨50, 50⟩ else none
    extTransfers := []
    events := [] }

/-- A concrete 32-byte server seed. -/
def wSeed : List Nat := List.replicate 32 171

/-- A concrete stand-in for the host SHA-256 digest function, used only to
evaluate universally quantified theorems at a concrete point. -/
def wHash : List Nat → List Nat := fun _ => List.range 32

/-- A concrete fulfilled entry. -/
def wEntry : RandomGenerator.FulfilledEntry := ⟨2, 6, wSeed, 3⟩

/-- Concrete oracle state used to evaluate the theorems: initialized with
admin 0 and oracle 1, caller 2 whitelisted, request 7 pending with bound 6,
request 3 fulfilled. -/
def orW : RandomGenerator.OrSt :=
  { admin := some 0
    oracle := some 1
    whitelist := fun c => c == 2
    pending := fun k => if k = 7 then some ⟨2, 6⟩ else none
    fulfilled := fun k => if k = 3 then some wEntry else none
    events := [] }

/-! ### Inversion lemmas for the checked `i128` arithmetic -/

theorem checked_add_eq {a b r : Int} (h : checked_add a b = some r) : r = a + b := by
  unfold checked_add at h
  split at h <;> simp_all

theorem checked_sub_eq {a b r : Int} (h : checked_sub a b = some r) : r = a - b := by
  unfold checked_sub at h
  split at h <;> simp_all

theorem checked_add_pos {a b : Int} (h1 : I128_MIN ≤ a + b) (h2 : a + b ≤ I128_MAX) :
    checked_add a b = some (a + b) := by
  unfold checked_add
  simp [h1, h2]

theorem checked_sub_pos {a b : Int} (h1 : I128_MIN ≤ a - b) (h2 : a - b ≤ I128_MAX) :
    checked_sub a b = some (a - b) := by
  unfold checked_sub
  simp [h1, h2]

/-! ### Shape lemmas: what each successful prize-pool operation does -/

theorem fund_ok {s s' : PrizePool.PoolSt} {f : Nat} {a : Int}
    (h : PrizePool.fund s f a = .ok s') :
    s' = { s with
           available := s.available + a
           extTransfers := (f, PrizePool.contractAddr, a) :: s.extTransfers
           events := .Funded f a :: s.events }
      ∧ 0 < a := by
  unfold PrizePool.fund at h
  split at h
  · exact Except.noConfusion h
  split at h
  · exact Except.noConfusion h
  rename_i hpos
  split at h
  · exact Except.noConfusion h
  rename_i v hv
  injection h with h
  subst h
  have hva := checked_add_eq hv
  subst hva
  exact ⟨rfl, by omega⟩

theorem reserve_ok {s s' : PrizePool.PoolSt} {ad g : Nat} {a : Int}
    (h : PrizePool.reserve s ad g a = .ok s') :
    s' = { s with
           available := s.available - a
           totalReserved := s.totalReserved + a
           reservations := PrizePool.updRes s.reservations g (some ⟨a, a⟩)
           events := .Reserved g a :: s.events }
      ∧ 0 < a ∧ s.reservations g = none := by
  unfold PrizePool.reserve at h
  split at h
  · exact Except.noConfusion h
  split at h
  · exact Except.noConfusion h
  split at h
  · exact Except.noConfusion h
  rename_i hpos
  split at h
  · exact Except.noConfusion h
  rename_i hres
  split at h
  · exact Except.noConfusion h
  split at h
  · exact Except.noConfusion h
  rename_i v hv
  split at h
  · exact Except.noConfusion h
  rename_i w hw
  injection h with h
  subst h
  have hva := checked_sub_eq hv
  have hwa := checked_add_eq hw
  subst hva
  subst hwa
  refine ⟨rfl, by omega, ?_⟩
  simpa using hres

theorem release_ok {s s' : PrizePool.PoolSt} {ad g : Nat} {a : Int}
    (h : PrizePool.release s ad g a = .ok s') :
    (∃ r, s.reservations g = some r ∧ 0 < a ∧ a ≤ r.remaining ∧
      s' = { s with
             available := s.available + a
             totalReserved := s.totalReserved - a
             reservations := PrizePool.updRes s.reservations g
               (if r.remaining - a = 0 then none else some ⟨r.total, r.remaining - a⟩)
             events := .Released g a :: s.events }) := by
  unfold PrizePool.release at h
  split at h
  · exact Except.noConfusion h
  split at h
  · exact Except.noConfusion h
  split at h
  · exact Except.noConfusion h
  rename_i hpos
  split at h
  · exact Except.noConfusion h
  rename_i r hr
  split at h
  · exact Except.noConfusion h
  rename_i hle
  split at h
  · exact Except.noConfusion h
  rename_i nr hnr
  split at h
  · exact Except.noConfusion h
  rename_i na hna
  split at h
  · exact Except.noConfusion h
  rename_i nt hnt
  injection h with h
  subst h
  have h1 := checked_sub_eq hnr
  have h2 := checked_add_eq hna
  have h3 := checked_sub_eq hnt
  subst h1
  subst h2
  subst h3
  exact ⟨r, hr, by omega, by omega, rfl⟩

theorem payout_ok {s s' : PrizePool.PoolSt} {ad t g : Nat} {a : Int}
    (h : PrizePool.payout s ad t g a = .ok s') :
    (∃ r, s.reservations g = some r ∧ 0 < a ∧ a ≤ r.remaining ∧
      s' = { s with
             totalReserved := s.totalReserved - a
             reservations := PrizePool.updRes s.reservations g
               (if r.remaining - a = 0 then none else some ⟨r.total, r.remaining - a⟩)
             extTransfers := (PrizePool.contractAddr, t, a) :: s.extTransfers
             events := .PaidOut t g a :: s.events }) := by
  unfold PrizePool.payout at h
  split at h
  · exact Except.noConfusion h
  split at h
  · exact Except.noConfusion h
  split at h
  · exact Except.noConfusion h
  rename_i hpos
  split at h
  · exact Except.noConfusion h
  rename_i r hr
  split at h
  · exact Except.noConfusion h
  rename_i hle
  split at h
  · exact Except.noConfusion h
  rename_i nr hnr
  split at h
  · exact Except.noConfusion h
  rename_i nt hnt
  injection h with h
  subst h
  have h1 := checked_sub_eq hnr
  have h2 := checked_sub_eq hnt
  subst h1
  subst h2
  exact ⟨r, hr, by omega, by omega, rfl⟩

/-! ### Shape lemmas: what each successful oracle operation does -/

theorem authorize_ok {s s' : RandomGenerator.OrSt} {ad c : Nat}
    (h : RandomGenerator.authorize s ad c = .ok s') :
    s' = { s with whitelist := RandomGenerator.updW s.whitelist c true } := by
  unfold RandomGenerator.authorize at h
  split at h
  · exact Except.noConfusion h
  split at h
  · exact Except.noConfusion h
  injection h with h
  exact h.symm

theorem revoke_ok {s s' : RandomGenerator.OrSt} {ad c : Nat}
    (h : RandomGenerator.revoke s ad c = .ok s') :
    s' = { s with whitelist := RandomGenerator.updW s.whitelist c false } := by
  unfold RandomGenerator.revoke at h
  split at h
  · exact Except.noConfusion h
  split at h
  · exact Except.noConfusion h
  injection h with h
  exact h.symm

theorem request_random_ok {s s' : RandomGenerator.OrSt} {c id mx : Nat}
    (h : RandomGenerator.request_random s c id mx = .ok s') :
    s.pending id = none ∧ s.fulfilled id = none ∧ 2 ≤ mx ∧ s.whitelist c = true ∧
      s' = { s with
             pending := RandomGenerator.updP s.pending id (some ⟨c, mx⟩)
             events := .RandomRequested id c mx :: s.events } := by
  unfold RandomGenerator.request_random at h
  split at h
  · exact Except.noConfusion h
  split at h
  · exact Except.noConfusion h
  rename_i hmx
  split at h
  · exact Except.noConfusion h
  rename_i hwl
  split at h
  · exact Except.noConfusion h
  rename_i hdup
  injection h with h
  push_neg at hdup
  refine ⟨?_, ?_, by omega, by simpa using hwl, h.symm⟩
  · simpa using hdup.1
  · simpa using hdup.2

theorem fulfill_random_ok {H : List Nat → List Nat} {s s' : RandomGenerator.OrSt}
    {o id : Nat} {seed : List Nat}
    (h : RandomGenerator.fulfill_random H s o id seed = .ok s') :
    s.fulfilled id = none ∧
      ∃ p, s.pending id = some p ∧
        s' = { s with
               pending := RandomGenerator.updP s.pending id none
               fulfilled := RandomGenerator.updF s.fulfilled id
                 (some ⟨p.caller, p.max, seed,
                        RandomGenerator.derive_result H seed id p.max⟩)
               events := .RandomFulfilled id
                 (RandomGenerator.derive_result H seed id p.max) seed :: s.events } := by
  unfold RandomGenerator.fulfill_random at h
  split at h
  · exact Except.noConfusion h
  split at h
  · exact Except.noConfusion h
  split at h
  · exact Except.noConfusion h
  rename_i hful
  split at h
  · exact Except.noConfusion h
  rename_i p hp
  injection h with h
  exact ⟨by simpa using hful, p, hp, h.symm⟩

/-! ### Step lemmas -/

/-- One invocation changes `available + total_reserved` by exactly the
successful fund amount minus the successful payout amount. -/
theorem poolStep_sum (s : PrizePool.PoolSt) (op : PoolOp) :
    (poolStep s op).available + (poolStep s op).totalReserved
      = s.available + s.totalReserved + fundDelta s op - payoutDelta s op := by
  cases op with
  | fund f a =>
    simp only [poolStep, applyPoolOp, fundDelta, payoutDelta]
    cases h : PrizePool.fund s f a with
    | error e => simp
    | ok s' =>
      obtain ⟨hs', _⟩ := fund_ok h
      subst hs'
      simp
      omega
  | reserve ad g a =>
    simp only [poolStep, applyPoolOp, fundDelta, payoutDelta]
    cases h : PrizePool.reserve s ad g a with
    | error e => simp
    | ok s' =>
      obtain ⟨hs', _, _⟩ := reserve_ok h
      subst hs'
      simp
  | release ad g a =>
    simp only [poolStep, applyPoolOp, fundDelta, payoutDelta]
    cases h : PrizePool.release s ad g a with
    | error e => simp
    | ok s' =>
      obtain ⟨r, _, _, _, hs'⟩ := release_ok h
      subst hs'
      simp
  | payout ad t g a =>
    simp only [poolStep, applyPoolOp, fundDelta, payoutDelta]
    cases h : PrizePool.payout s ad t g a with
    | error e => simp
    | ok s' =>
      obtain ⟨r, _, _, _, hs'⟩ := payout_ok h
      subst hs'
      simp
      omega

/-- Run form of `poolStep_sum`. -/
theorem poolRun_sum (s : PrizePool.PoolSt) (ops : List PoolOp) :
    (poolRun s ops).available + (poolRun s ops).totalReserved
      = s.available + s.totalReserved + poolFunds s ops - poolPayouts s ops := by
  induction ops generalizing s with
  | nil => simp [poolRun, poolFunds, poolPayouts]
  | cons op ops ih =>
    simp only [poolRun, poolFunds, poolPayouts]
    have h1 := poolStep_sum s op
    have h2 := ih (poolStep s op)
    omega

/-- One oracle invocation preserves pending/fulfilled exclusivity. -/
theorem orStep_excl (H : List Nat → List Nat) (s : RandomGenerator.OrSt) (op : OrOp)
    (hs : Excl s) : Excl (orStep H s op) := by
  intro id
  unfold orStep
  cases hop : applyOrOp H s op with
  | error e => exact hs id
  | ok s' =>
    cases op with
    | authorize ad c =>
      have h := authorize_ok hop
      subst h
      exact hs id
    | revoke ad c =>
      have h := revoke_ok hop
      subst h
      exact hs id
    | request_random c rid mx =>
      obtain ⟨hpn, hfn, _, _, h⟩ := request_random_ok hop
      subst h
      simp only [RandomGenerator.updP]
      by_cases hid : id = rid
      · subst hid
        exact Or.inr hfn
      · simpa [hid] using hs id
    | fulfill_random o rid seed =>
      obtain ⟨hfn, p, hp, h⟩ := fulfill_random_ok hop
      subst h
      simp only [RandomGenerator.updP, RandomGenerator.updF]
      by_cases hid : id = rid
      · subst hid
        simp
      · simpa [hid] using hs id

/-- A fulfilled entry survives any oracle invocation unchanged. -/
theorem orStep_fulfilled_mono (H : List Nat → List Nat) (s : RandomGenerator.OrSt)
    (op : OrOp) (id : Nat) (e : RandomGenerator.FulfilledEntry)
    (h : s.fulfilled id = some e) : (orStep H s op).fulfilled id = some e := by
  unfold orStep
  cases hop : applyOrOp H s op with
  | error _ => exact h
  | ok s' =>
    cases op with
    | authorize ad c =>
      have hs := authorize_ok hop
      subst hs
      exact h
    | revoke ad c =>
      have hs := revoke_ok hop
      subst hs
      exact h
    | request_random c rid mx =>
      obtain ⟨_, _, _, _, hs⟩ := request_random_ok hop
      subst hs
      exact h
    | fulfill_random o rid seed =>
      obtain ⟨hfn, p, hp, hs⟩ := fulfill_random_ok hop
      subst hs
      simp only [RandomGenerator.updF]
      by_cases hid : id = rid
      · subst hid
        rw [h] at hfn
        exact Option.noConfusion hfn
      · simpa [hid] using h

/-- Run form of `orStep_excl`. -/
theorem orRun_excl (H : List Nat → List Nat) (s : RandomGenerator.OrSt)
    (ops : List OrOp) (hs : Excl s) : Excl (orRun H s ops) := by
  induction ops generalizing s with
  | nil => exact hs
  | cons op ops ih => exact ih _ (orStep_excl H s op hs)

theorem I128_MIN_nonpos : I128_MIN ≤ 0 := by norm_num [I128_MIN]

theorem I128_MAX_nonneg : 0 ≤ I128_MAX := by norm_num [I128_MAX]

theorem I128_MIN_le_neg_MAX : I128_MIN ≤ -I128_MAX := by norm_num [I128_MIN, I128_MAX]

/-! ### Claims -/

/-- Claim C1: for every sequence of fund/reserve/release/payout invocations
starting from the initialized pool state, `available + total_reserved`
equals the cumulative sum of successful fund amounts minus the cumulative
sum of successful payout amounts; moreover each single invocation changes
this sum by exactly its successful fund amount minus its successful payout
amount, so reserve and release (whose deltas are zero) leave it unchanged. -/
theorem C1_accounting_invariant :
    (∀ (a t : Nat) (ops : List PoolOp),
      (poolRun (PrizePool.initPool a t) ops).available
        + (poolRun (PrizePool.initPool a t) ops).totalReserved
        = poolFunds (PrizePool.initPool a t) ops
          - poolPayouts (PrizePool.initPool a t) ops)
    ∧ (∀ (s : PrizePool.PoolSt) (op : PoolOp),
      (poolStep s op).available + (poolStep s op).totalReserved
        = s.available + s.totalReserved + fundDelta s op - payoutDelta s op) := by
  constructor
  · intro a t ops
    have h := poolRun_sum (PrizePool.initPool a t) ops
    have h2 : (PrizePool.initPool a t).available = 0 := rfl
    have h3 : (PrizePool.initPool a t).totalReserved = 0 := rfl
    omega
  · exact poolStep_sum

/-- Claim C2: for a pending request with bound `max ≥ 2` and a 32-byte
server seed, a successful `fulfill_random` stores a fulfilled entry whose
result is the first 8 bytes of `SHA256(server_seed ‖ be64(request_id))`
read as a big-endian u64 and reduced modulo `max`; this result is below
`max` and the stored entry (and the emitted event) carry the seed, so it is
reproducible from the stored data alone. -/
theorem C2_fulfill_result (H : List Nat → List Nat) (s s' : RandomGenerator.OrSt)
    (o id : Nat) (seed : List Nat) (p : RandomGenerator.PendingEntry)
    (hp : s.pending id = some p) (hmax : 2 ≤ p.max) (_hlen : seed.length = 32)
    (h : RandomGenerator.fulfill_random H s o id seed = .ok s') :
    s'.fulfilled id = some ⟨p.caller, p.max, seed,
        RandomGenerator.derive_result H seed id p.max⟩
    ∧ RandomGenerator.derive_result H seed id p.max
        = RandomGenerator.u64_from_be_bytes
            ((H (seed ++ RandomGenerator.u64_to_be_bytes id)).take 8) % p.max
    ∧ RandomGenerator.derive_result H seed id p.max < p.max
    ∧ s'.events.head? = some (.RandomFulfilled id
        (RandomGenerator.derive_result H seed id p.max) seed) := by
  obtain ⟨hfn, q, hq, hs⟩ := fulfill_random_ok h
  rw [hp] at hq
  injection hq with hq
  subst hq
  subst hs
  refine ⟨by simp [RandomGenerator.updF], rfl, ?_, by simp⟩
  exact Nat.mod_lt _ (by omega)

/-- Claim C2 witness: evaluating the theorem on the concrete oracle state
`orW` (request 7 pending with bound 6) and the concrete digest function. -/
theorem C2_fulfill_result_witness :
    (orStep wHash orW (.fulfill_random 1 7 wSeed)).fulfilled 7
        = some ⟨2, 6, wSeed, RandomGenerator.derive_result wHash wSeed 7 6⟩
    ∧ RandomGenerator.derive_result wHash wSeed 7 6
        = RandomGenerator.u64_from_be_bytes
            ((wHash (wSeed ++ RandomGenerator.u64_to_be_bytes 7)).take 8) % 6
    ∧ RandomGenerator.derive_result wHash wSeed 7 6 < 6
    ∧ (orStep wHash orW (.fulfill_random 1 7 wSeed)).events.head?
        = some (.RandomFulfilled 7 (RandomGenerator.derive_result wHash wSeed 7 6) wSeed) :=
  C2_fulfill_result wHash orW (orStep wHash orW (.fulfill_random 1 7 wSeed))
    1 7 wSeed ⟨2, 6⟩ rfl (by decide) (by decide) rfl

/-- Claim C3 counterexample: on the initialized state `orW`, caller 5 is
not on the whitelist, yet `request_random` with `max = 1` fails with
`InvalidBound`, not `UnauthorizedCaller` — the bound check precedes the
whitelist check, so the claim's universal quantification over `max` fails. -/
theorem C3_counterexample :
    orW.whitelist 5 = false
    ∧ orW.admin = some 0
    ∧ RandomGenerator.request_random orW 5 9 1
        = .error RandomGenerator.Error.InvalidBound
    ∧ RandomGenerator.request_random orW 5 9 1
        ≠ .error RandomGenerator.Error.UnauthorizedCaller := by
  refine ⟨rfl, rfl, rfl, ?_⟩
  intro hcontra
  rw [show RandomGenerator.request_random orW 5 9 1
      = .error RandomGenerator.Error.InvalidBound from rfl] at hcontra
  simp at hcontra

/-- Claim C3 (amended): on an initialized contract, a caller not on the
whitelist calling `request_random` with any valid bound `max ≥ 2` fails with
`UnauthorizedCaller` regardless of its (host-verified) self-authorization;
for `max < 2` the bound check fires first with `InvalidBound`. -/
theorem C3_unauthorized_caller (s : RandomGenerator.OrSt) (c id mx a : Nat)
    (ha : s.admin = some a) (hw : s.whitelist c = false) (hmx : 2 ≤ mx) :
    RandomGenerator.request_random s c id mx
      = .error RandomGenerator.Error.UnauthorizedCaller := by
  unfold RandomGenerator.request_random RandomGenerator.require_initialized
  rw [ha]
  simp [hw, Nat.not_lt.mpr hmx]

/-- Claim C3 witness: caller 5 is not whitelisted in `orW` and is rejected
with `UnauthorizedCaller` at bound 6. -/
theorem C3_unauthorized_caller_witness :
    RandomGenerator.request_random orW 5 9 6
      = .error RandomGenerator.Error.UnauthorizedCaller :=
  C3_unauthorized_caller orW 5 9 6 0 rfl rfl (by omega)

/-- Claim C4: in every state reachable by the oracle's operations from the
initialized state, a request id is never both pending and fulfilled; and
from any state, a fulfilled entry survives every operation unchanged (never
deleted or overwritten), so a fulfilled id never returns to absent or
pending. -/
theorem C4_request_state_machine (H : List Nat → List Nat) (a o : Nat)
    (ops : List OrOp) (id : Nat) :
    ((orRun H (RandomGenerator.initOr a o) ops).pending id = none
      ∨ (orRun H (RandomGenerator.initOr a o) ops).fulfilled id = none)
    ∧ ∀ (s : RandomGenerator.OrSt) (op : OrOp) (e : RandomGenerator.FulfilledEntry),
        s.fulfilled id = some e → (orStep H s op).fulfilled id = some e := by
  constructor
  · exact orRun_excl H _ ops (fun _ => Or.inl rfl) id
  · intro s op e h
    exact orStep_fulfilled_mono H s op id e h

/-- Claim C4 witness: the fulfilled entry for request 3 in `orW` survives a
`revoke` invocation. -/
theorem C4_request_state_machine_witness :
    (orStep wHash orW (.revoke 0 2)).fulfilled 3 = some wEntry :=
  (C4_request_state_machine wHash 0 1 [] 3).2 orW (.revoke 0 2) wEntry rfl

/-- Claim C5: a whitelisted, authorized caller with a valid bound requesting
a `request_id` that is already pending or already fulfilled is rejected with
`DuplicateRequestId` — id reuse is blocked for the whole request lifetime. -/
theorem C5_duplicate_request_id (s : RandomGenerator.OrSt) (c id mx a : Nat)
    (ha : s.admin = some a) (hw : s.whitelist c = true) (hmx : 2 ≤ mx)
    (hdup : (s.pending id).isSome ∨ (s.fulfilled id).isSome) :
    RandomGenerator.request_random s c id mx
      = .error RandomGenerator.Error.DuplicateRequestId := by
  unfold RandomGenerator.request_random RandomGenerator.require_initialized
  rw [ha]
  simp [hw, Nat.not_lt.mpr hmx, hdup]

/-- Claim C5 witness: whitelisted caller 2 re-requesting the pending id 7
(and the fulfilled id 3) in `orW` is rejected. -/
theorem C5_duplicate_request_id_witness :
    RandomGenerator.request_random orW 2 7 6
      = .error RandomGenerator.Error.DuplicateRequestId
    ∧ RandomGenerator.request_random orW 2 3 6
      = .error RandomGenerator.Error.DuplicateRequestId :=
  ⟨C5_duplicate_request_id orW 2 7 6 0 rfl rfl (by omega) (Or.inl rfl),
   C5_duplicate_request_id orW 2 3 6 0 rfl rfl (by omega) (Or.inr rfl)⟩

/-- Claim C6 counterexample: game 1 of `poolW` has an open reservation with
`remaining = 50` and the amount 0 satisfies `amount ≤ remaining`, yet
`release` fails with `InvalidAmount` instead of succeeding — non-positive
amounts are rejected before the reservation is even read. -/
theorem C6_counterexample :
    poolW.reservations 1 = some ⟨50, 50⟩
    ∧ (0 : Int) ≤ 50
    ∧ PrizePool.release poolW 3 1 0 = .error PrizePool.Error.InvalidAmount :=
  ⟨rfl, by norm_num, rfl⟩

/-- Claim C6 (amended): on an initialized pool, called by the admin with a
positive amount and balances within `i128` range, `release` with
`amount ≤ remaining` succeeds, adding the amount to `available`, subtracting
it from `total_reserved`, decrementing `remaining` and deleting the
reservation exactly when the new remaining is 0; with `amount > remaining`
it fails `PayoutExceedsReservation`; with no reservation for the purpose it
fails `ReservationNotFound`. -/
theorem C6_release_behavior (s : PrizePool.PoolSt) (a g : Nat) (amount : Int)
    (ha : s.admin = some a) (hpos : 0 < amount)
    (hav0 : 0 ≤ s.available) (hav : s.available + amount ≤ I128_MAX)
    (htr0 : 0 ≤ s.totalReserved) (htr : s.totalReserved ≤ I128_MAX) :
    (s.reservations g = none →
      PrizePool.release s a g amount = .error PrizePool.Error.ReservationNotFound)
    ∧ ∀ r, s.reservations g = some r → r.remaining ≤ I128_MAX →
        (amount ≤ r.remaining →
          PrizePool.release s a g amount = .ok { s with
            available := s.available + amount
            totalReserved := s.totalReserved - amount
            reservations := PrizePool.updRes s.reservations g
              (if r.remaining - amount = 0 then none
               else some ⟨r.total, r.remaining - amount⟩)
            events := .Released g amount :: s.events })
        ∧ (r.remaining < amount →
          PrizePool.release s a g amount
            = .error PrizePool.Error.PayoutExceedsReservation) := by
  have hmin := I128_MIN_nonpos
  have hneg := I128_MIN_le_neg_MAX
  constructor
  · intro hnone
    unfold PrizePool.release PrizePool.require_initialized PrizePool.require_admin
    rw [ha, hnone]
    simp [not_le.mpr hpos]
  · intro r hr hrm
    constructor
    · intro hle
      unfold PrizePool.release PrizePool.require_initialized PrizePool.require_admin
      rw [ha, hr]
      simp [not_le.mpr hpos, not_lt.mpr hle,
        checked_sub_pos (a := r.remaining) (b := amount) (by omega) (by omega),
        checked_add_pos (a := s.available) (b := amount) (by omega) (by omega),
        checked_sub_pos (a := s.totalReserved) (b := amount) (by omega) (by omega)]
    · intro hlt
      unfold PrizePool.release PrizePool.require_initialized PrizePool.require_admin
      rw [ha, hr]
      simp [not_le.mpr hpos, hlt]

/-- Claim C6 witness: releasing 20 of the 50-token reservation of game 1 in
`poolW` succeeds and leaves a shrunk reservation. -/
theorem C6_release_behavior_witness :
    PrizePool.release poolW 3 1 20 = .ok { poolW with
      available := poolW.available + 20
      totalReserved := poolW.totalReserved - 20
      reservations := PrizePool.updRes poolW.reservations 1
        (if (50 : Int) - 20 = 0 then none
         else some ⟨50, (50 : Int) - 20⟩)
      events := .Released 1 20 :: poolW.events } :=
  ((C6_release_behavior poolW 3 1 20 rfl (by decide) (by decide)
      (by decide) (by decide) (by decide)).2
    ⟨50, 50⟩ rfl (by decide)).1 (by decide)

/-- Claim C7: a successful payout leaves `available` unchanged and performs
exactly the release bookkeeping — decrement `remaining` and
`total_reserved`, delete the reservation exactly when the new remaining is
0 — with the drawn amount transferred externally to the recipient instead of
returned to `available`. -/
theorem C7_payout_frame (s s' : PrizePool.PoolSt) (a t g : Nat) (amount : Int)
    (h : PrizePool.payout s a t g amount = .ok s') :
    s'.available = s.available
    ∧ s'.totalReserved = s.totalReserved - amount
    ∧ (∃ r, s.reservations g = some r ∧ 0 < amount ∧ amount ≤ r.remaining ∧
        s'.reservations = PrizePool.updRes s.reservations g
          (if r.remaining - amount = 0 then none
           else some ⟨r.total, r.remaining - amount⟩))
    ∧ s'.extTransfers = (PrizePool.contractAddr, t, amount) :: s.extTransfers := by
  obtain ⟨r, hr, hpos, hle, hs⟩ := payout_ok h
  subst hs
  exact ⟨rfl, rfl, ⟨r, hr, hpos, hle, rfl⟩, rfl⟩

/-- Claim C7 witness: paying out the full 50-token reservation of game 1 in
`poolW` to address 4 leaves `available` at 100 and deletes the entry. -/
theorem C7_payout_frame_witness :
    (poolStep poolW (.payout 3 4 1 50)).available = poolW.available
    ∧ (poolStep poolW (.payout 3 4 1 50)).totalReserved = poolW.totalReserved - 50
    ∧ (∃ r, poolW.reservations 1 = some r ∧ (0 : Int) < 50 ∧ 50 ≤ r.remaining ∧
        (poolStep poolW (.payout 3 4 1 50)).reservations
          = PrizePool.updRes poolW.reservations 1
            (if r.remaining - 50 = 0 then none
             else some ⟨r.total, r.remaining - 50⟩))
    ∧ (poolStep poolW (.payout 3 4 1 50)).extTransfers
        = (PrizePool.contractAddr, 4, 50) :: poolW.extTransfers :=
  C7_payout_frame poolW (poolStep poolW (.payout 3 4 1 50)) 3 4 1 50 rfl

/-- Claim C8: with the designated oracle calling on an initialized contract,
`fulfill_random` fails `AlreadyFulfilled` whenever a fulfilled entry already
exists for the id, and fails `RequestNotFound` whenever neither a fulfilled
nor a pending entry exists — so a second fulfillment is always rejected. -/
theorem C8_fulfill_errors (H : List Nat → List Nat) (s : RandomGenerator.OrSt)
    (o id a : Nat) (seed : List Nat)
    (ha : s.admin = some a) (ho : s.oracle = some o) :
    ((s.fulfilled id).isSome →
      RandomGenerator.fulfill_random H s o id seed
        = .error RandomGenerator.Error.AlreadyFulfilled)
    ∧ (s.fulfilled id = none → s.pending id = none →
      RandomGenerator.fulfill_random H s o id seed
        = .error RandomGenerator.Error.RequestNotFound) := by
  unfold RandomGenerator.fulfill_random RandomGenerator.require_initialized
    RandomGenerator.require_oracle
  rw [ha, ho]
  constructor
  · intro hf
    simp [hf]
  · intro hf hp
    rw [hp]
    simp [hf]

/-- Claim C8 witness: in `orW`, re-fulfilling the fulfilled id 3 is rejected
with `AlreadyFulfilled` and fulfilling the never-requested id 4 with
`RequestNotFound`. -/
theorem C8_fulfill_errors_witness :
    RandomGenerator.fulfill_random wHash orW 1 3 wSeed
      = .error RandomGenerator.Error.AlreadyFulfilled
    ∧ RandomGenerator.fulfill_random wHash orW 1 4 wSeed
      = .error RandomGenerator.Error.RequestNotFound :=
  ⟨(C8_fulfill_errors wHash orW 1 3 0 wSeed rfl rfl).1 rfl,
   (C8_fulfill_errors wHash orW 1 4 0 wSeed rfl rfl).2 rfl rfl⟩

/-- Claim C9: every operation of both components is atomic on error — when
an invocation returns a typed error the resulting storage state is exactly
the pre-call state (the model embeds the host's all-or-nothing invocation
semantics: a failed invocation commits none of its writes). -/
theorem C9_atomic_errors :
    (∀ (s : PrizePool.PoolSt) (op : PoolOp) (e : PrizePool.Error),
      applyPoolOp s op = .error e → poolStep s op = s)
    ∧ (∀ (H : List Nat → List Nat) (s : RandomGenerator.OrSt) (op : OrOp)
        (e : RandomGenerator.Error),
      applyOrOp H s op = .error e → orStep H s op = s) := by
  constructor
  · intro s op e h
    simp [poolStep, h]
  · intro H s op e h
    simp [orStep, h]

/-- Claim C9 witness: a rejected zero-amount `fund` leaves `poolW` unchanged
and a rejected non-admin `authorize` leaves `orW` unchanged. -/
theorem C9_atomic_errors_witness :
    poolStep poolW (.fund 2 0) = poolW
    ∧ orStep wHash orW (.authorize 9 5) = orW :=
  ⟨C9_atomic_errors.1 poolW (.fund 2 0) PrizePool.Error.InvalidAmount rfl,
   C9_atomic_errors.2 wHash orW (.authorize 9 5) RandomGenerator.Error.NotAuthorized rfl⟩

/-- Claim C10: on an initialized pool with the admin calling, `reserve`,
`release` and `payout` each reject every non-positive amount with
`InvalidAmount` — before any reservation or counter is read or mutated, as
the rejection also fires when no reservation exists at all. -/
theorem C10_nonpositive_amount (s : PrizePool.PoolSt) (a t g : Nat) (amount : Int)
    (ha : s.admin = some a) (hamt : amount ≤ 0) :
    PrizePool.reserve s a g amount = .error PrizePool.Error.InvalidAmount
    ∧ PrizePool.release s a g amount = .error PrizePool.Error.InvalidAmount
    ∧ PrizePool.payout s a t g amount = .error PrizePool.Error.InvalidAmount := by
  unfold PrizePool.reserve PrizePool.release PrizePool.payout
    PrizePool.require_initialized PrizePool.require_admin
  rw [ha]
  simp [hamt]

/-- Claim C10 witness: zero-amount `reserve`, `release` and `payout` against
the reservation-free game 2 of `poolW` all fail with `InvalidAmount` (not
`ReservationNotFound`). -/
theorem C10_nonpositive_amount_witness :
    PrizePool.reserve poolW 3 2 0 = .error PrizePool.Error.InvalidAmount
    ∧ PrizePool.release poolW 3 2 0 = .error PrizePool.Error.InvalidAmount
    ∧ PrizePool.payout poolW 3 4 2 0 = .error PrizePool.Error.InvalidAmount :=
  C10_nonpositive_amount poolW 3 4 2 0 rfl (by norm_num)

end StellarCade
